import Mathlib

/-!
Verification development for the supply-chain exploration notebook
(`analysis.py`).  The script builds a 74-row synthetic dataframe `df_all`
from a seeded numpy generator, exposes `get_recent_df(n)` returning the
last rows (with a minimum of 2), and a slider callback `render_analysis`
that computes summary statistics, a correlation matrix rounded to three
decimals, and the top-3 correlation pairs by absolute value.

The embedding models numeric values as rationals (every IEEE double is a
rational), the Pearson coefficient over the reals (its defining formula
divides by square roots of variances), the pandas NaN produced for a
zero-variance column as `Option.none`, and the pseudo-random stream that
`np.random.seed(42)` initialises as an abstract function `z : ℕ → ℚ` of
draw position, so that the dataset is an explicit function of the seeded
stream.
-/

namespace SupplyChain

open scoped List

/-- The five dataframe column names, in the column order used when `df_all`
is constructed in CELL 1 of `analysis.py`. -/
def fieldNames : List String :=
  ["Supplier_Lead_Time", "Inventory_Levels", "Order_Frequency",
   "Delivery_Performance", "Cost_Per_Unit"]

/-- One row of the synthetic supply-chain dataframe: five numeric fields. -/
structure SupplyRecord where
  supplier_Lead_Time : ℚ
  inventory_Levels : ℚ
  order_Frequency : ℚ
  delivery_Performance : ℚ
  cost_Per_Unit : ℚ
deriving DecidableEq

/-- Column access by field name (reading `df[name]` entry-wise for the five
known columns; unknown names, never used by the script, give 0). -/
def fieldVal (r : SupplyRecord) (f : String) : ℚ :=
  if f = "Supplier_Lead_Time" then r.supplier_Lead_Time
  else if f = "Inventory_Levels" then r.inventory_Levels
  else if f = "Order_Frequency" then r.order_Frequency
  else if f = "Delivery_Performance" then r.delivery_Performance
  else if f = "Cost_Per_Unit" then r.cost_Per_Unit
  else 0

/-- A named column of a dataframe, as the list of its entries in row order. -/
def colQ (df : List SupplyRecord) (f : String) : List ℚ :=
  df.map (fun r => fieldVal r f)

/-- numpy `np.clip(x, lo, None)`. -/
def clipLo (x lo : ℚ) : ℚ := max x lo

/-- numpy `np.clip(x, lo, hi)`. -/
def clipRange (x lo hi : ℚ) : ℚ := min (max x lo) hi

/-- Row count of the synthetic dataset (`n_rows = 74` in CELL 1). -/
def n_rows : ℕ := 74

/-- CELL 1 dataset construction.  `z` is the stream of standard-normal draws
produced by the numpy global generator after `np.random.seed(42)`; each
`np.random.normal(loc, scale, size=74)` call consumes the next 74 draws of
the stream and returns `loc + scale * z_k`, and each column is then clipped
with `np.clip`.  The five columns are drawn in source order, so column `c`
(0-based) uses stream positions `74 * c + i` for row `i`. -/
def mk_df_all (z : ℕ → ℚ) : List SupplyRecord :=
  (List.range n_rows).map fun i =>
    { supplier_Lead_Time := clipLo (12 + 5 * z i) 1
      inventory_Levels := clipLo (300 + 90 * z (n_rows + i)) 0
      order_Frequency := clipLo (6 + 5/2 * z (2 * n_rows + i)) (1/2)
      delivery_Performance := clipRange (85 + 8 * z (3 * n_rows + i)) 40 100
      cost_Per_Unit := clipLo (28 + 7 * z (4 * n_rows + i)) 1 }

/-- pandas `df.tail(n)`: the last `n` rows in original order (all rows when
`n` is at least the length). -/
def tailRows (df : List SupplyRecord) (n : ℤ) : List SupplyRecord :=
  df.drop (df.length - n.toNat)

/-- `get_recent_df(n_rows_to_use)` from CELL 1: clamp the request below by 2
(the minimal safe size for correlation), then take the tail.
`reset_index(drop=True)` only renumbers the positional index on a copy, so
it is the identity on the row list. -/
def get_recent_df (df_all : List SupplyRecord) (n_rows_to_use : ℤ) : List SupplyRecord :=
  let n := if n_rows_to_use < 2 then 2 else n_rows_to_use
  tailRows df_all n

/-- Arithmetic mean of a column. -/
def listMean (xs : List ℚ) : ℚ := xs.sum / xs.length

/-- Sum of products of deviations from the means, over paired entries. -/
def covSum (xs ys : List ℚ) : ℚ :=
  (List.zipWith (fun a b => (a - listMean xs) * (b - listMean ys)) xs ys).sum

/-- Sum of squared deviations of a column from its mean. -/
def varSum (xs : List ℚ) : ℚ := covSum xs xs

/-- numpy rounding to an integer: round half to even (rational version). -/
def roundHalfEven (x : ℚ) : ℤ :=
  if x - ⌊x⌋ = 1/2 then (if Even ⌊x⌋ then ⌊x⌋ else ⌊x⌋ + 1) else round x

/-- pandas `.round(3)` on a rational value. -/
def round3 (q : ℚ) : ℚ := (roundHalfEven (1000 * q) : ℚ) / 1000

/-- pandas `.round(2)` on a rational value. -/
def round2 (q : ℚ) : ℚ := (roundHalfEven (100 * q) : ℚ) / 100

/-- Round half to even on a real value. -/
noncomputable def roundHalfEvenR (x : ℝ) : ℤ :=
  if x - ⌊x⌋ = 1/2 then (if Even ⌊x⌋ then ⌊x⌋ else ⌊x⌋ + 1) else round x

/-- pandas `.round(3)` applied to a real correlation value; the result is a
multiple of 1/1000, hence rational. -/
noncomputable def round3R (x : ℝ) : ℚ := (roundHalfEvenR (1000 * x) : ℚ) / 1000

/-- Pearson coefficient of two columns: covariance sum divided by the product
of the square roots of the squared-deviation sums. -/
noncomputable def pearsonVal (xs ys : List ℚ) : ℝ :=
  (covSum xs ys : ℝ) / (Real.sqrt (varSum xs) * Real.sqrt (varSum ys))

/-- One entry of `current_df.corr().round(3)`.  pandas produces NaN when either
column has zero variance (the divisor is 0), modelled by `none`; otherwise the
Pearson value rounded to three decimals. -/
noncomputable def pearson3 (xs ys : List ℚ) : Option ℚ :=
  if varSum xs = 0 ∨ varSum ys = 0 then none
  else some (round3R (pearsonVal xs ys))

/-- The correlation matrix `corr = current_df.corr().round(3)` of CELL 2,
as a function of the two field names. -/
noncomputable def corrRound3 (df : List SupplyRecord) (a b : String) : Option ℚ :=
  pearson3 (colQ df a) (colQ df b)

/-- Python string comparison on code-point lists (lexicographic). -/
def charListLt : List Char → List Char → Bool
  | _, [] => false
  | [], _ :: _ => true
  | a :: as, b :: bs => if a < b then true else if b < a then false else charListLt as bs

/-- Python `var1 < var2` on strings. -/
def pyLt (s t : String) : Bool := charListLt s.data t.data

/-- One row of the `corr_pairs` frame: `(var1, var2, corr)` with `none` for a
NaN correlation. -/
abbrev CorrEntry : Type := String × String × Option ℚ

/-- `corr.unstack()` enumeration order: the label pairs `(column, row)` listed
column-major, i.e. for each column (in dataframe column order) all rows. -/
def unstackPairs (fields : List String) : List (String × String) :=
  fields.flatMap fun c => fields.map fun r => (c, r)

/-- Lines 104-108 of `analysis.py`: unstack the matrix, name the label columns
`var1, var2`, keep the rows with `var1 < var2`, and read off the correlation
entry for each kept pair. -/
def corr_pairs (fields : List String) (M : String → String → Option ℚ) : List CorrEntry :=
  ((unstackPairs fields).filter fun p => pyLt p.1 p.2).map fun p => (p.1, p.2, M p.1 p.2)

/-- The `abs_corr` sort key.  A NaN key is modelled as `-1`, strictly below
every true key `|q| ≥ 0`: pandas `sort_values(ascending=False)` places NaN
keys after all comparable keys (`na_position` defaults to `last`). -/
def absKey (v : Option ℚ) : ℚ :=
  match v with
  | none => -1
  | some q => |q|

/-- Sort key of a `corr_pairs` row. -/
def entryKey (e : CorrEntry) : ℚ := absKey e.2.2

/-- Row comparison realising descending order of `abs_corr`. -/
def descLE (a b : CorrEntry) : Prop := entryKey b ≤ entryKey a

instance : DecidableRel descLE :=
  fun a b => inferInstanceAs (Decidable (entryKey b ≤ entryKey a))

instance : IsTotal CorrEntry descLE :=
  ⟨fun a b => (le_total (entryKey b) (entryKey a)).imp id id⟩

instance : IsTrans CorrEntry descLE :=
  ⟨fun _ _ _ h1 h2 => le_trans h2 h1⟩

/-- Line 109 of `analysis.py`:
`corr_pairs.sort_values('abs_corr', ascending=False).head(3)`.
On the ten pairs at hand pandas performs a stable descending sort (a stable
ascending argsort bracketed by two index reversals) with NaN keys placed
last; a stable sort with a fixed total preorder is unique, so it is modelled
by insertion sort with the descending comparison. -/
def top_pairs (fields : List String) (M : String → String → Option ℚ) : List CorrEntry :=
  (List.insertionSort descLE (corr_pairs fields M)).take 3

/-- Entry-wise 3-decimal rounding of a full-precision matrix; a NaN entry
stays NaN.  `top_pairs fields (roundMat3 M)` is the ranking the code performs
(on the rounded matrix), while `top_pairs fields M` is the ranking on the
unrounded coefficients that the spec asserts. -/
def roundMat3 (M : String → String → Option ℚ) : String → String → Option ℚ :=
  fun a b => (M a b).map round3

/-- The order asserted by the spec sentence for ranked pairs: strictly larger
absolute correlation first and, for ties of absolute correlation, the
lexicographically smaller (fieldA, fieldB) name pair first.  This definition
follows the words of the spec, to be compared with the behaviour of
`top_pairs`. -/
def specTieLex (a b : CorrEntry) : Prop :=
  entryKey b < entryKey a ∨
    (entryKey a = entryKey b ∧
      (pyLt a.1 b.1 = true ∨ (a.1 = b.1 ∧ pyLt a.2.1 b.2.1 = true)))

instance : DecidableRel specTieLex :=
  fun a b =>
    inferInstanceAs (Decidable (entryKey b < entryKey a ∨
      (entryKey a = entryKey b ∧
        (pyLt a.1 b.1 = true ∨ (a.1 = b.1 ∧ pyLt a.2.1 b.2.1 = true)))))

/-- The spec-asserted ranking discipline, as a property of the produced list:
consecutive ranked pairs are ordered by descending absolute correlation with
lexicographic tie-break. -/
def specLexRanked (fields : List String) (M : String → String → Option ℚ) : Prop :=
  (top_pairs fields M).Pairwise specTieLex

instance (fields : List String) (M : String → String → Option ℚ) :
    Decidable (specLexRanked fields M) :=
  inferInstanceAs (Decidable ((top_pairs fields M).Pairwise specTieLex))

/-- A symmetric unit-diagonal matrix in which the pair (Inventory_Levels,
Supplier_Lead_Time) has correlation 1 and (Cost_Per_Unit,
Delivery_Performance) has correlation -1, every other off-diagonal entry 0:
two ranked pairs tie at absolute correlation 1. -/
def tieM : String → String → Option ℚ := fun a b =>
  if a = b then some 1
  else if (a = "Inventory_Levels" ∧ b = "Supplier_Lead_Time") ∨
          (a = "Supplier_Lead_Time" ∧ b = "Inventory_Levels") then some 1
  else if (a = "Cost_Per_Unit" ∧ b = "Delivery_Performance") ∨
          (a = "Delivery_Performance" ∧ b = "Cost_Per_Unit") then some (-1)
  else some 0

/-- The rational 0.123 = 123/1000 as an explicit reduced fraction. -/
def q123 : ℚ := ⟨123, 1000, by decide, by decide⟩

/-- The rational 0.1234 = 617/5000 as an explicit reduced fraction. -/
def q1234 : ℚ := ⟨617, 5000, by decide, by decide⟩

/-- A full-precision matrix whose entries for the pairs (Inventory_Levels,
Supplier_Lead_Time) and (Cost_Per_Unit, Delivery_Performance) are 0.123 and
0.1234: distinct at full precision, identical after 3-decimal rounding. -/
def fpM : String → String → Option ℚ := fun a b =>
  if a = b then some 1
  else if (a = "Inventory_Levels" ∧ b = "Supplier_Lead_Time") ∨
          (a = "Supplier_Lead_Time" ∧ b = "Inventory_Levels") then some q123
  else if (a = "Cost_Per_Unit" ∧ b = "Delivery_Performance") ∨
          (a = "Delivery_Performance" ∧ b = "Cost_Per_Unit") then some q1234
  else some 0

/-- The matrix `fpM` after entry-wise 3-decimal rounding, written with literal
entries. -/
def fpM3 : String → String → Option ℚ := fun a b =>
  if a = b then some 1
  else if (a = "Inventory_Levels" ∧ b = "Supplier_Lead_Time") ∨
          (a = "Supplier_Lead_Time" ∧ b = "Inventory_Levels") then some q123
  else if (a = "Cost_Per_Unit" ∧ b = "Delivery_Performance") ∨
          (a = "Delivery_Performance" ∧ b = "Cost_Per_Unit") then some q123
  else some 0

/-- A concrete 4-row dataframe whose exact correlation matrix is `tieM`: the
Inventory_Levels column equals the Supplier_Lead_Time column (correlation 1),
the Cost_Per_Unit column is the negation of the Delivery_Performance column
(correlation -1), and all remaining column pairs have zero covariance. -/
def df4 : List SupplyRecord :=
  [⟨1, 1, 1, 1, -1⟩, ⟨-1, -1, -1, 1, -1⟩, ⟨1, 1, -1, -1, 1⟩, ⟨-1, -1, 1, -1, 1⟩]

/-- A matrix in which every off-diagonal correlation is NaN, as produced by a
subset whose every column has zero variance. -/
def nanM : String → String → Option ℚ := fun a b => if a = b then some 1 else none

/-- A record holding the distribution means, used as concrete witness data. -/
def r00 : SupplyRecord := ⟨12, 300, 6, 85, 28⟩

/-- A concrete 74-row dataframe for witnesses. -/
def df74 : List SupplyRecord := List.replicate 74 r00

/-- The all-zero draw stream (every standard-normal draw is 0). -/
def zZero : ℕ → ℚ := fun _ => 0

/-- Two rows differing in every column: every column of this subset has
nonzero variance. -/
def df2AB : List SupplyRecord := [⟨1, 1, 1, 1, 1⟩, ⟨2, 2, 2, 2, 2⟩]

/-- Two rows equal in the Supplier_Lead_Time column (zero variance there)
and distinct elsewhere. -/
def dfConst : List SupplyRecord := [⟨5, 1, 1, 1, 1⟩, ⟨5, 2, 2, 2, 2⟩]

/-- The module-level mutable state of the notebook: the dataframe `df_all`
created by CELL 1 and closed over by `get_recent_df` and `render_analysis`. -/
structure NotebookState where
  df_all : List SupplyRecord
deriving DecidableEq

/-- The artifacts rendered by one call of `render_analysis`: the dynamic
markdown (selected row count and three rounded summary means), the top
correlation pairs, the displayed correlation matrix, the heatmap title row
count, and the displayed summary means table (rounded to 2 decimals). -/
structure RenderOutput where
  md_rows_selected : ℤ
  md_mean_supplier_lead_time : ℚ
  md_mean_inventory_levels : ℚ
  md_mean_delivery_performance : ℚ
  md_top_pairs : List CorrEntry
  corr_table : String → String → Option ℚ
  heatmap_title_rows : ℤ
  summary_mean : String → ℚ

/-- `render_analysis(n_rows_selected)` from CELL 2.  It reads the module-level
`df_all` (the notebook state), recomputes the subset, the summary, the rounded
correlation matrix and the ranked pairs, and renders; no statement assigns to
`df_all`, so the state component of the result is the input state. -/
noncomputable def render_analysis (st : NotebookState) (n_rows_selected : ℤ) :
    NotebookState × RenderOutput :=
  let current_df := get_recent_df st.df_all n_rows_selected
  let sm := fun f => round2 (listMean (colQ current_df f))
  let corr := corrRound3 current_df
  let tops := top_pairs fieldNames corr
  (st,
   { md_rows_selected := n_rows_selected
     md_mean_supplier_lead_time := sm "Supplier_Lead_Time"
     md_mean_inventory_levels := sm "Inventory_Levels"
     md_mean_delivery_performance := sm "Delivery_Performance"
     md_top_pairs := tops
     corr_table := corr
     heatmap_title_rows := n_rows_selected
     summary_mean := sm })

/-- Characterisation of the subset selector on a 74-row dataframe: it is the
tail of clamp(n, 2, 74) rows. -/
lemma get_recent_df_spec (df : List SupplyRecord) (n : ℤ) (h74 : df.length = 74) :
    get_recent_df df n = df.drop (74 - (min (max n 2) 74).toNat) ∧
    (get_recent_df df n).length = (min (max n 2) 74).toNat := by
  have heq : df.length - (if n < 2 then (2 : ℤ) else n).toNat
      = 74 - (min (max n 2) 74).toNat := by
    rcases lt_or_le n 2 with h | h
    · rw [if_pos h, h74]; omega
    · rw [if_neg (not_lt.mpr h), h74]; omega
  constructor
  · simp only [get_recent_df, tailRows, heq]
  · simp only [get_recent_df, tailRows, heq, List.length_drop, h74]
    omega

/-- C1: for a 74-row dataset, `get_recent_df(N)` returns exactly the last
clamp(N, 2, 74) records in their original relative order: the last N records
for N in [2, 74], the last 2 records for N below 2, and the whole dataset for
N at or above 74. -/
theorem C1_get_recent_df_clamped_tail (df : List SupplyRecord) (n : ℤ)
    (h74 : df.length = 74) :
    get_recent_df df n = df.drop (74 - (min (max n 2) 74).toNat) ∧
    (get_recent_df df n).length = (min (max n 2) 74).toNat :=
  get_recent_df_spec df n h74

/-- Witness for C1 at the concrete 74-row dataframe `df74` and request N = 1:
the clamp gives the last 2 records. -/
theorem C1_get_recent_df_clamped_tail_witness :
    df74.length = 74 ∧
    (get_recent_df df74 1 = df74.drop (74 - (min (max (1 : ℤ) 2) 74).toNat) ∧
      (get_recent_df df74 1).length = (min (max (1 : ℤ) 2) 74).toNat) := by
  have h74 : df74.length = 74 := by simp [df74]
  exact ⟨h74, C1_get_recent_df_clamped_tail df74 1 h74⟩

/-- C5: for every draw stream, the generated dataset has exactly 74 records of
5 numeric fields, and every record satisfies the clipping bounds:
Supplier_Lead_Time at least 1, Inventory_Levels at least 0, Order_Frequency at
least 0.5, Delivery_Performance in [40, 100], Cost_Per_Unit at least 1. -/
theorem C5_dataset_shape_and_bounds (z : ℕ → ℚ) :
    (mk_df_all z).length = 74 ∧ fieldNames.length = 5 ∧
    ∀ r ∈ mk_df_all z,
      1 ≤ r.supplier_Lead_Time ∧ 0 ≤ r.inventory_Levels ∧
      (1 : ℚ)/2 ≤ r.order_Frequency ∧
      (40 ≤ r.delivery_Performance ∧ r.delivery_Performance ≤ 100) ∧
      1 ≤ r.cost_Per_Unit := by
  refine ⟨by simp [mk_df_all, n_rows], by decide, ?_⟩
  intro r hr
  simp only [mk_df_all, List.mem_map] at hr
  obtain ⟨i, -, rfl⟩ := hr
  refine ⟨le_max_right _ _, le_max_right _ _, le_max_right _ _, ⟨?_, ?_⟩,
    le_max_right _ _⟩
  · exact le_min (le_max_right _ _) (by norm_num)
  · exact min_le_right _ _

/-- Witness for C5: the all-zero draw stream generates a 74-row table whose
first record is the vector of means, and that record satisfies the bounds. -/
theorem C5_dataset_shape_and_bounds_witness :
    r00 ∈ mk_df_all zZero ∧
    (1 ≤ r00.supplier_Lead_Time ∧ 0 ≤ r00.inventory_Levels ∧
      (1 : ℚ)/2 ≤ r00.order_Frequency ∧
      (40 ≤ r00.delivery_Performance ∧ r00.delivery_Performance ≤ 100) ∧
      1 ≤ r00.cost_Per_Unit) := by
  have hmem : r00 ∈ mk_df_all zZero := by
    apply List.mem_map.mpr
    refine ⟨0, by simp [n_rows], ?_⟩
    norm_num [zZero, clipLo, clipRange, r00, max_def, min_def]
  exact ⟨hmem, (C5_dataset_shape_and_bounds zZero).2.2 r00 hmem⟩

/-- C8: dataset generation is deterministic in the seeded stream: two
generation runs whose streams agree on the 5 * 74 = 370 consumed draw
positions (as two runs re-seeded with 42 do) produce identical tables, and
consequently the rendered output is a function of the selected row count
alone. -/
theorem C8_generation_deterministic (z1 z2 : ℕ → ℚ)
    (h : ∀ i, i < 5 * n_rows → z1 i = z2 i) :
    mk_df_all z1 = mk_df_all z2 ∧
    ∀ n : ℤ, render_analysis ⟨mk_df_all z1⟩ n = render_analysis ⟨mk_df_all z2⟩ n := by
  have hdf : mk_df_all z1 = mk_df_all z2 := by
    unfold mk_df_all
    apply List.map_congr_left
    intro i hi
    have hi74 : i < 74 := by simpa [n_rows] using List.mem_range.mp hi
    have e0 : z1 i = z2 i := h i (by simp only [n_rows]; omega)
    have e1 : z1 (n_rows + i) = z2 (n_rows + i) := h _ (by simp only [n_rows]; omega)
    have e2 : z1 (2 * n_rows + i) = z2 (2 * n_rows + i) := h _ (by simp only [n_rows]; omega)
    have e3 : z1 (3 * n_rows + i) = z2 (3 * n_rows + i) := h _ (by simp only [n_rows]; omega)
    have e4 : z1 (4 * n_rows + i) = z2 (4 * n_rows + i) := h _ (by simp only [n_rows]; omega)
    rw [e0, e1, e2, e3, e4]
  exact ⟨hdf, fun n => by rw [hdf]⟩

/-- Witness for C8 at the all-zero stream: two runs over the same stream give
the same table and the same rendered output at N = 20. -/
theorem C8_generation_deterministic_witness :
    mk_df_all zZero = mk_df_all zZero ∧
    render_analysis ⟨mk_df_all zZero⟩ 20 = render_analysis ⟨mk_df_all zZero⟩ 20 := by
  obtain ⟨h1, h2⟩ := C8_generation_deterministic zZero zZero (fun i _ => rfl)
  exact ⟨h1, h2 20⟩

/-- C9: a full run of `render_analysis` leaves the notebook state, and in
particular the dataframe `df_all`, exactly equal to its value before the run,
for every requested row count. -/
theorem C9_render_does_not_mutate (st : NotebookState) (n : ℤ) :
    (render_analysis st n).1 = st ∧ (render_analysis st n).1.df_all = st.df_all :=
  ⟨rfl, rfl⟩

/-- C10: for every request below 2 the analysed subset has exactly 2 rows,
yet the rendered heading and the heatmap title both report the requested
count verbatim, so the displayed count and the analysed count disagree. -/
theorem C10_displayed_count_disagrees (df0 : List SupplyRecord) (n : ℤ)
    (h74 : df0.length = 74) (hn : n < 2) :
    (get_recent_df df0 n).length = 2 ∧
    (render_analysis ⟨df0⟩ n).2.md_rows_selected = n ∧
    (render_analysis ⟨df0⟩ n).2.heatmap_title_rows = n ∧
    (render_analysis ⟨df0⟩ n).2.md_rows_selected ≠ ((get_recent_df df0 n).length : ℤ) := by
  have hlen : (get_recent_df df0 n).length = 2 := by
    have h := (get_recent_df_spec df0 n h74).2
    rw [h]; omega
  refine ⟨hlen, rfl, rfl, ?_⟩
  have hsel : (render_analysis ⟨df0⟩ n).2.md_rows_selected = n := rfl
  rw [hsel, hlen]
  intro hcontr
  omega

/-- Witness for C10 at the concrete dataframe `df74` and request N = 1. -/
theorem C10_displayed_count_disagrees_witness :
    df74.length = 74 ∧ (1 : ℤ) < 2 ∧
    (get_recent_df df74 1).length = 2 ∧
    (render_analysis ⟨df74⟩ 1).2.md_rows_selected ≠ ((get_recent_df df74 1).length : ℤ) := by
  have h74 : df74.length = 74 := by simp [df74]
  obtain ⟨h1, -, -, h4⟩ := C10_displayed_count_disagrees df74 1 h74 (by decide)
  exact ⟨h74, by decide, h1, h4⟩

/-- The ranked output is sorted by descending absolute correlation. -/
lemma sorted_top_pairs (fields : List String) (M : String → String → Option ℚ) :
    List.Sorted descLE (top_pairs fields M) :=
  (List.sorted_insertionSort descLE (corr_pairs fields M)).sublist
    (List.take_sublist _ _)

/-- Membership in the enumerated pair rows. -/
lemma mem_corr_pairs {fields : List String} {M : String → String → Option ℚ}
    {a b : String} :
    ((a, b, M a b) : CorrEntry) ∈ corr_pairs fields M ↔
      a ∈ fields ∧ b ∈ fields ∧ pyLt a b = true := by
  unfold corr_pairs unstackPairs
  constructor
  · intro h
    obtain ⟨p, hp, he⟩ := List.mem_map.mp h
    obtain ⟨hpu, hplt⟩ := List.mem_filter.mp hp
    obtain ⟨c, hc, hr⟩ := List.mem_flatMap.mp hpu
    obtain ⟨r, hrr, hcr⟩ := List.mem_map.mp hr
    have h1 : p.1 = a := congrArg (fun e : CorrEntry => e.1) he
    have h2 : p.2 = b := congrArg (fun e : CorrEntry => e.2.1) he
    have hc1 : c = p.1 := by rw [← hcr]
    have hc2 : r = p.2 := by rw [← hcr]
    refine ⟨?_, ?_, ?_⟩
    · rw [← h1, ← hc1]; exact hc
    · rw [← h2, ← hc2]; exact hrr
    · rw [← h1, ← h2]; exact hplt
  · rintro ⟨ha, hb, hlt⟩
    apply List.mem_map.mpr
    refine ⟨(a, b), List.mem_filter.mpr ⟨?_, hlt⟩, rfl⟩
    exact List.mem_flatMap.mpr ⟨a, ha, List.mem_map.mpr ⟨b, hb, rfl⟩⟩

/-- C2 amended: the ranking enumerates all unordered field pairs excluding
self-pairs, sorts them in descending order of absolute correlation with a
stable sort, and returns the first 3; ties of absolute correlation keep the
enumeration (unstack, dataframe column-major) order of the pairs, not the
lexicographic field-name order. -/
theorem C2_ranking_stable_enumeration_order (fields : List String)
    (M : String → String → Option ℚ) :
    top_pairs fields M = (List.insertionSort descLE (corr_pairs fields M)).take 3 ∧
    List.Sorted descLE (top_pairs fields M) ∧
    (∀ a b : CorrEntry, entryKey a = entryKey b → [a, b] <+ corr_pairs fields M →
      [a, b] <+ List.insertionSort descLE (corr_pairs fields M)) ∧
    (∀ a b : String, ((a, b, M a b) : CorrEntry) ∈ corr_pairs fields M ↔
      a ∈ fields ∧ b ∈ fields ∧ pyLt a b = true) := by
  refine ⟨rfl, sorted_top_pairs fields M, ?_, fun a b => mem_corr_pairs⟩
  intro a b hk hsub
  exact List.pair_sublist_insertionSort hk.ge hsub

/-- Witness for C2 amended at the tied matrix: the two tied pairs occur in
enumeration order in the pair rows, and the stable sort keeps that order. -/
theorem C2_ranking_stable_enumeration_order_witness :
    entryKey (("Inventory_Levels", "Supplier_Lead_Time", some 1) : CorrEntry) =
      entryKey (("Cost_Per_Unit", "Delivery_Performance", some (-1)) : CorrEntry) ∧
    [(("Inventory_Levels", "Supplier_Lead_Time", some 1) : CorrEntry),
     ("Cost_Per_Unit", "Delivery_Performance", some (-1))] <+ corr_pairs fieldNames tieM ∧
    [(("Inventory_Levels", "Supplier_Lead_Time", some 1) : CorrEntry),
     ("Cost_Per_Unit", "Delivery_Performance", some (-1))] <+
      List.insertionSort descLE (corr_pairs fieldNames tieM) := by
  refine ⟨by decide, by decide, ?_⟩
  exact (C2_ranking_stable_enumeration_order fieldNames tieM).2.2.1 _ _
    (by decide) (by decide)

/-- Evaluation of 3-decimal rounding at 1. -/
lemma round3_one : round3 1 = 1 := by
  unfold round3 roundHalfEven
  have hf : (⌊(1000 * (1 : ℚ))⌋ : ℤ) = 1000 := by norm_num
  rw [hf, if_neg (by norm_num)]
  norm_num [round_eq]

/-- Evaluation of 3-decimal rounding at 0. -/
lemma round3_zero : round3 0 = 0 := by
  unfold round3 roundHalfEven
  have hf : (⌊(1000 * (0 : ℚ))⌋ : ℤ) = 0 := by norm_num
  rw [hf, if_neg (by norm_num)]
  norm_num [round_eq]

/-- The explicit fraction 0.123 as a division. -/
lemma q123_eq : q123 = 123/1000 := by
  rw [q123, Rat.mk'_eq_divInt, Rat.divInt_eq_div]
  norm_num

/-- The explicit fraction 0.1234 as a division. -/
lemma q1234_eq : q1234 = 617/5000 := by
  rw [q1234, Rat.mk'_eq_divInt, Rat.divInt_eq_div]
  norm_num

/-- Evaluation of 3-decimal rounding at 0.123. -/
lemma round3_123 : round3 q123 = q123 := by
  unfold round3 roundHalfEven
  have hm : (1000 : ℚ) * q123 = 123 := by rw [q123_eq]; norm_num
  rw [hm]
  have hf : (⌊(123 : ℚ)⌋ : ℤ) = 123 := by norm_num
  rw [hf, if_neg (by norm_num)]
  rw [q123_eq]
  norm_num [round_eq]

/-- Evaluation of 3-decimal rounding at 0.1234: the result is 0.123. -/
lemma round3_1234 : round3 q1234 = q123 := by
  unfold round3 roundHalfEven
  have hm : (1000 : ℚ) * q1234 = 617/5 := by rw [q1234_eq]; norm_num
  rw [hm]
  have hf : (⌊(617/5 : ℚ)⌋ : ℤ) = 123 := by
    rw [Int.floor_eq_iff]
    norm_num
  rw [hf, if_neg (by norm_num), q123_eq]
  have hr : (round ((617 : ℚ)/5) : ℤ) = 123 := by
    rw [round_eq]
    rw [Int.floor_eq_iff]
    norm_num
  rw [hr]
  norm_num

/-- The rounded matrix of the full-precision counterexample, computed. -/
lemma roundMat3_fpM : roundMat3 fpM = fpM3 := by
  funext a b
  unfold roundMat3 fpM fpM3
  split_ifs <;>
    simp [Option.map, round3_one, round3_zero, round3_123, round3_1234]

/-- C3 counterexample: the code ranks on the 3-decimal-rounded matrix, not on
the unrounded coefficients.  At the matrix `fpM`, with pair correlations 0.123
and 0.1234, ranking the rounded matrix puts (Inventory_Levels,
Supplier_Lead_Time) first (tie at 0.123, enumeration order), while ranking the
unrounded coefficients puts (Cost_Per_Unit, Delivery_Performance) first. -/
theorem C3_ranking_uses_rounded_counterexample :
    top_pairs fieldNames (roundMat3 fpM) ≠ top_pairs fieldNames fpM ∧
    (top_pairs fieldNames (roundMat3 fpM)).head? =
      some ("Inventory_Levels", "Supplier_Lead_Time", some q123) ∧
    (top_pairs fieldNames fpM).head? =
      some ("Cost_Per_Unit", "Delivery_Performance", some q1234) := by
  rw [roundMat3_fpM]
  refine ⟨by decide, by decide, by decide⟩

/-- Distance of half-to-even rounding from its argument. -/
lemma abs_roundHalfEven_sub (x : ℚ) : |(roundHalfEven x : ℚ) - x| ≤ 1/2 := by
  unfold roundHalfEven
  split_ifs with h1 h2
  · rw [abs_le]; constructor <;> linarith
  · push_cast
    rw [abs_le]; constructor <;> linarith
  · rw [abs_sub_comm]
    exact abs_sub_round x

/-- Half-to-even rounding is monotone. -/
lemma roundHalfEven_mono {x y : ℚ} (h : x ≤ y) :
    roundHalfEven x ≤ roundHalfEven y := by
  rcases eq_or_lt_of_le h with rfl | hlt
  · exact le_refl _
  · by_contra hc
    push_neg at hc
    have hc1 : roundHalfEven y + 1 ≤ roundHalfEven x := hc
    have hcast : (roundHalfEven y : ℚ) + 1 ≤ (roundHalfEven x : ℚ) := by
      exact_mod_cast hc1
    have hx := abs_le.mp (abs_roundHalfEven_sub x)
    have hy := abs_le.mp (abs_roundHalfEven_sub y)
    linarith [hx.1, hx.2, hy.1, hy.2]

/-- C3 amended: the displayed summary (2 decimals) and matrix (3 decimals)
roundings are presentational, but the top-3 ranking is computed on the
3-decimal-rounded correlations, not at full precision.  Rounding is monotone,
so the rounded ranking never strictly inverts the full-precision order of two
pairs; it can only merge distinct absolute correlations into ties, which are
then resolved by enumeration order. -/
theorem C3_ranking_on_rounded_monotone :
    (∀ (st : NotebookState) (n : ℤ),
      (render_analysis st n).2.md_top_pairs =
        top_pairs fieldNames (corrRound3 (get_recent_df st.df_all n))) ∧
    (∀ q r : ℚ, q ≤ r → round3 q ≤ round3 r) := by
  refine ⟨fun st n => by simp only [render_analysis], fun q r h => ?_⟩
  unfold round3
  have hm : roundHalfEven (1000 * q) ≤ roundHalfEven (1000 * r) :=
    roundHalfEven_mono (by linarith)
  have hcast : ((roundHalfEven (1000 * q) : ℚ)) ≤ ((roundHalfEven (1000 * r) : ℚ)) := by
    exact_mod_cast hm
  linarith

/-- Witness for C3 amended: rendering at N = 20 ranks the rounded matrix of
the subset, and rounding preserves the order of 0 and 1. -/
theorem C3_ranking_on_rounded_monotone_witness :
    (0 : ℚ) ≤ 1 ∧ round3 0 ≤ round3 1 ∧
    (render_analysis ⟨df74⟩ 20).2.md_top_pairs =
      top_pairs fieldNames (corrRound3 (get_recent_df df74 20)) :=
  ⟨by norm_num, C3_ranking_on_rounded_monotone.2 0 1 (by norm_num),
    C3_ranking_on_rounded_monotone.1 ⟨df74⟩ 20⟩

/-- The deviation-product sum is symmetric. -/
lemma covSum_comm (xs ys : List ℚ) : covSum xs ys = covSum ys xs := by
  unfold covSum
  rw [List.zipWith_comm]
  have hfun : (fun b a => (a - listMean xs) * (b - listMean ys))
      = fun b a => (b - listMean ys) * (a - listMean xs) := by
    funext b a
    ring
  rw [hfun]

/-- The squared-deviation sum is nonnegative. -/
lemma varSum_nonneg (xs : List ℚ) : 0 ≤ varSum xs := by
  unfold varSum covSum
  rw [List.zipWith_same]
  apply List.sum_nonneg
  intro x hx
  obtain ⟨a, -, rfl⟩ := List.mem_map.mp hx
  exact mul_self_nonneg _

/-- The Pearson value is symmetric in its two columns. -/
lemma pearsonVal_comm (xs ys : List ℚ) : pearsonVal xs ys = pearsonVal ys xs := by
  unfold pearsonVal
  rw [covSum_comm, mul_comm]

/-- A rounded correlation entry is symmetric in its two columns. -/
lemma pearson3_comm (xs ys : List ℚ) : pearson3 xs ys = pearson3 ys xs := by
  unfold pearson3
  by_cases h1 : varSum xs = 0 <;> by_cases h2 : varSum ys = 0 <;>
    simp [h1, h2, pearsonVal_comm xs ys]

/-- Rounding 1 to three decimals over the reals gives 1. -/
lemma round3R_one : round3R 1 = 1 := by
  unfold round3R roundHalfEvenR
  have hm : (1000 : ℝ) * 1 = 1000 := by norm_num
  rw [hm]
  have hf : (⌊(1000 : ℝ)⌋ : ℤ) = 1000 := by norm_num
  rw [hf, if_neg (by norm_num)]
  have hr : (round (1000 : ℝ) : ℤ) = 1000 := by
    rw [round_eq]
    norm_num
  rw [hr]
  norm_num

/-- A nondegenerate column correlates with itself at exactly 1. -/
lemma pearson3_self (xs : List ℚ) (h : varSum xs ≠ 0) : pearson3 xs xs = some 1 := by
  unfold pearson3
  rw [if_neg (by simp [h])]
  have hnn : (0 : ℝ) ≤ ((varSum xs : ℚ) : ℝ) := by
    exact_mod_cast varSum_nonneg xs
  have hne : ((varSum xs : ℚ) : ℝ) ≠ 0 := by exact_mod_cast h
  have hv : pearsonVal xs xs = 1 := by
    unfold pearsonVal
    rw [show covSum xs xs = varSum xs from rfl]
    rw [Real.mul_self_sqrt hnn, div_self hne]
  rw [hv, round3R_one]

/-- C4: a zero-variance column makes every correlation entry that involves it
the explicit NaN marker (not a silent zero and not an exception), and in the
ranked output a NaN absolute correlation sorts lowest: no NaN entry ever
precedes a non-NaN entry in the top-3 list. -/
theorem C4_nan_propagates_and_sorts_last :
    (∀ (df : List SupplyRecord) (f g : String), varSum (colQ df f) = 0 →
      corrRound3 df f g = none ∧ corrRound3 df g f = none) ∧
    (∀ (fields : List String) (M : String → String → Option ℚ)
      (i j : Fin (top_pairs fields M).length), i < j →
      ((top_pairs fields M).get i).2.2 = none →
      ((top_pairs fields M).get j).2.2 = none) := by
  constructor
  · intro df f g h
    constructor
    · simp [corrRound3, pearson3, h]
    · simp [corrRound3, pearson3, h]
  · intro fields M i j hij hnone
    have hs : List.Sorted descLE (top_pairs fields M) := sorted_top_pairs fields M
    have hrel : descLE ((top_pairs fields M).get i) ((top_pairs fields M).get j) :=
      hs.rel_get_of_lt hij
    have hi : entryKey ((top_pairs fields M).get i) = -1 := by
      unfold entryKey
      rw [hnone]
      rfl
    cases hv : ((top_pairs fields M).get j).2.2 with
    | none => rfl
    | some q =>
      exfalso
      have hj : entryKey ((top_pairs fields M).get j) = |q| := by
        unfold entryKey
        rw [hv]
        rfl
      have h1 : (|q| : ℚ) ≤ -1 := by
        rw [← hj, ← hi]; exact hrel
      linarith [abs_nonneg q]

/-- Witness for C4: the dataframe `dfConst` has a constant Supplier_Lead_Time
column, so its correlations with Inventory_Levels are NaN in both matrix
positions; and in the all-NaN matrix the second ranked entry is NaN because
the first is. -/
theorem C4_nan_propagates_and_sorts_last_witness :
    varSum (colQ dfConst "Supplier_Lead_Time") = 0 ∧
    (corrRound3 dfConst "Supplier_Lead_Time" "Inventory_Levels" = none ∧
      corrRound3 dfConst "Inventory_Levels" "Supplier_Lead_Time" = none) ∧
    ((top_pairs fieldNames nanM).get ⟨1, by decide⟩).2.2 = none := by
  have h0 : varSum (colQ dfConst "Supplier_Lead_Time") = 0 := by
    norm_num [varSum, covSum, listMean, colQ, fieldVal, dfConst]
  refine ⟨h0, C4_nan_propagates_and_sorts_last.1 dfConst _ _ h0, ?_⟩
  exact C4_nan_propagates_and_sorts_last.2 fieldNames nanM
    ⟨0, by decide⟩ ⟨1, by decide⟩ (by decide) (by decide)

/-- C6: for every subset produced by the selector whose five columns all have
nonzero variance (as every subset of the actual seeded dataset does), the
computed correlation matrix is over the 5-element field list, symmetric in its
two arguments, and has diagonal exactly 1. -/
theorem C6_matrix_symmetric_unit_diagonal (df0 : List SupplyRecord) (n : ℤ)
    (hvar : ∀ f ∈ fieldNames, varSum (colQ (get_recent_df df0 n) f) ≠ 0) :
    fieldNames.length = 5 ∧ fieldNames.Nodup ∧
    (∀ a b : String,
      corrRound3 (get_recent_df df0 n) a b = corrRound3 (get_recent_df df0 n) b a) ∧
    (∀ f ∈ fieldNames, corrRound3 (get_recent_df df0 n) f f = some 1) := by
  refine ⟨by decide, by decide, ?_, ?_⟩
  · intro a b
    exact pearson3_comm _ _
  · intro f hf
    exact pearson3_self _ (hvar f hf)

/-- Witness for C6 at the two-row dataframe `df2AB`, whose every column has
nonzero variance. -/
theorem C6_matrix_symmetric_unit_diagonal_witness :
    (∀ f ∈ fieldNames, varSum (colQ (get_recent_df df2AB 2) f) ≠ 0) ∧
    (∀ f ∈ fieldNames, corrRound3 (get_recent_df df2AB 2) f f = some 1) := by
  have hsub : get_recent_df df2AB 2 = df2AB := by
    simp [get_recent_df, tailRows, df2AB]
  have h : ∀ f ∈ fieldNames, varSum (colQ (get_recent_df df2AB 2) f) ≠ 0 := by
    intro f hf
    rw [hsub]
    fin_cases hf <;>
      norm_num [varSum, covSum, listMean, colQ, fieldVal, df2AB]
  exact ⟨h, (C6_matrix_symmetric_unit_diagonal df2AB 2 h).2.2.2⟩

/-- Lexicographic code-point comparison is irreflexive. -/
lemma charListLt_irrefl : ∀ l : List Char, charListLt l l = false
  | [] => rfl
  | a :: as => by
    show (if a < a then true else if a < a then false else charListLt as as) = false
    rw [if_neg (lt_irrefl a), if_neg (lt_irrefl a)]
    exact charListLt_irrefl as

/-- Lexicographic code-point comparison is asymmetric. -/
lemma charListLt_asymm : ∀ l1 l2 : List Char,
    charListLt l1 l2 = true → charListLt l2 l1 = false
  | l1, [], h => by
    exfalso
    cases l1 <;> simp [charListLt] at h
  | [], _ :: _, _ => rfl
  | a :: as, b :: bs, h => by
    show (if b < a then true else if a < b then false else charListLt bs as) = false
    by_cases hab : a < b
    · rw [if_neg (lt_asymm hab), if_pos hab]
    · by_cases hba : b < a
      · exfalso
        have hred : charListLt (a :: as) (b :: bs) = false := by
          show (if a < b then true else if b < a then false else charListLt as bs) = false
          rw [if_neg hab, if_pos hba]
        rw [hred] at h
        exact Bool.false_ne_true h
      · rw [if_neg hba, if_neg hab]
        apply charListLt_asymm as bs
        have hred : charListLt (a :: as) (b :: bs) = charListLt as bs := by
          show (if a < b then true else if b < a then false else charListLt as bs) = _
          rw [if_neg hab, if_neg hba]
        rw [← hred]
        exact h

/-- Python string comparison is irreflexive. -/
lemma pyLt_irrefl (s : String) : pyLt s s = false :=
  charListLt_irrefl s.data

/-- Python string comparison is asymmetric. -/
lemma pyLt_asymm {s t : String} (h : pyLt s t = true) : pyLt t s = false :=
  charListLt_asymm _ _ h

/-- Every enumerated pair row has lexicographically ordered names and carries
the matrix entry of its own name pair. -/
lemma corr_pairs_shape {fields : List String} {M : String → String → Option ℚ} :
    ∀ e ∈ corr_pairs fields M, pyLt e.1 e.2.1 = true ∧ e.2.2 = M e.1 e.2.1 := by
  intro e he
  obtain ⟨p, hp, rfl⟩ := List.mem_map.mp he
  obtain ⟨-, hplt⟩ := List.mem_filter.mp hp
  exact ⟨hplt, rfl⟩

/-- A ranked entry comes from the enumerated pair rows. -/
lemma mem_top_pairs_sub {fields : List String} {M : String → String → Option ℚ}
    {e : CorrEntry} (he : e ∈ top_pairs fields M) : e ∈ corr_pairs fields M := by
  unfold top_pairs at he
  exact (List.mem_insertionSort descLE).mp (List.mem_of_mem_take he)

/-- Distinct field names give pairwise-distinct enumerated pair rows. -/
lemma nodup_corr_pairs {fields : List String} {M : String → String → Option ℚ}
    (h : fields.Nodup) : (corr_pairs fields M).Nodup := by
  unfold corr_pairs
  apply List.Nodup.map_on
  · intro x _ y _ hxy
    have h1 : x.1 = y.1 := congrArg (fun e : CorrEntry => e.1) hxy
    have h2 : x.2 = y.2 := congrArg (fun e : CorrEntry => e.2.1) hxy
    exact Prod.ext h1 h2
  · exact List.Nodup.filter _ (List.Nodup.product h h)

/-- C7: for all field lists without duplicate names, the ranked output has
length at most 3, every entry names its fields with fieldA lexicographically
smaller than fieldB (hence no self-pairs), no two entries name the same or
mirrored pair, and when fewer than 3 pairs exist all of them appear; with the
5-field dataframe the output has exactly 3 entries drawn from the 10 possible
pairs, whatever the correlation values are (so in particular on the full
74-row subset). -/
theorem C7_ranked_pairs_structure :
    (∀ (fields : List String) (M : String → String → Option ℚ), fields.Nodup →
      (top_pairs fields M).length ≤ 3 ∧
      (∀ e ∈ top_pairs fields M, pyLt e.1 e.2.1 = true ∧ e.1 ≠ e.2.1) ∧
      (top_pairs fields M).Pairwise
        (fun e1 e2 => ¬(e1.1 = e2.1 ∧ e1.2.1 = e2.2.1) ∧
          ¬(e1.1 = e2.2.1 ∧ e1.2.1 = e2.1)) ∧
      ((corr_pairs fields M).length < 3 →
        ∀ p ∈ corr_pairs fields M, p ∈ top_pairs fields M)) ∧
    (∀ M : String → String → Option ℚ,
      (top_pairs fieldNames M).length = 3 ∧
      ((unstackPairs fieldNames).filter fun p => pyLt p.1 p.2).length = 10 ∧
      ∀ e ∈ top_pairs fieldNames M,
        (e.1, e.2.1) ∈ (unstackPairs fieldNames).filter fun p => pyLt p.1 p.2) := by
  constructor
  · intro fields M hN
    refine ⟨?_, ?_, ?_, ?_⟩
    · unfold top_pairs
      exact List.length_take_le _ _
    · intro e he
      obtain ⟨hlt, -⟩ := corr_pairs_shape e (mem_top_pairs_sub he)
      refine ⟨hlt, fun heq => ?_⟩
      rw [heq, pyLt_irrefl] at hlt
      exact Bool.false_ne_true hlt
    · have hnodup : (top_pairs fields M).Nodup :=
        List.Nodup.sublist (List.take_sublist _ _)
          (((List.perm_insertionSort descLE (corr_pairs fields M)).nodup_iff).mpr
            (nodup_corr_pairs hN))
      apply List.Pairwise.imp_of_mem ?_ hnodup
      intro e1 e2 h1 h2 hne
      have hs1 := corr_pairs_shape e1 (mem_top_pairs_sub h1)
      have hs2 := corr_pairs_shape e2 (mem_top_pairs_sub h2)
      constructor
      · rintro ⟨ha, hb⟩
        apply hne
        have hv : e1.2.2 = e2.2.2 := by rw [hs1.2, hs2.2, ha, hb]
        exact Prod.ext ha (Prod.ext hb hv)
      · rintro ⟨ha, hb⟩
        have h1lt := hs1.1
        rw [ha, hb] at h1lt
        rw [pyLt_asymm hs2.1] at h1lt
        exact Bool.false_ne_true h1lt
    · intro hlt3 p hp
      unfold top_pairs
      rw [List.take_of_length_le (by rw [List.length_insertionSort]; omega)]
      exact (List.mem_insertionSort descLE).mpr hp
  · intro M
    have h10 : (corr_pairs fieldNames M).length = 10 := by
      unfold corr_pairs
      rw [List.length_map]
      decide
    refine ⟨?_, by decide, ?_⟩
    · unfold top_pairs
      rw [List.length_take, List.length_insertionSort, h10]
      decide
    · intro e he
      obtain ⟨p, hp, rfl⟩ := List.mem_map.mp (mem_top_pairs_sub he)
      rw [Prod.mk.eta]
      exact hp

/-- Witness for C7 at a 2-field list (a single pair, returned whole) and at
the 5-field list (exactly 3 entries). -/
theorem C7_ranked_pairs_structure_witness :
    List.Nodup ["a", "b"] ∧
    (top_pairs ["a", "b"] nanM).length ≤ 3 ∧
    (top_pairs fieldNames nanM).length = 3 := by
  refine ⟨by decide, ?_, (C7_ranked_pairs_structure.2 nanM).1⟩
  exact (C7_ranked_pairs_structure.1 ["a", "b"] nanM (by decide)).1

/-- Rounding 0 to three decimals over the reals gives 0. -/
lemma round3R_zero : round3R 0 = 0 := by
  unfold round3R roundHalfEvenR
  have hm : (1000 : ℝ) * 0 = 0 := by norm_num
  rw [hm]
  have hf : (⌊(0 : ℝ)⌋ : ℤ) = 0 := by norm_num
  rw [hf, if_neg (by norm_num)]
  have hr : (round (0 : ℝ) : ℤ) = 0 := by
    rw [round_eq]
    norm_num
  rw [hr]
  norm_num

/-- Rounding -1 to three decimals over the reals gives -1. -/
lemma round3R_neg_one : round3R (-1) = -1 := by
  unfold round3R roundHalfEvenR
  have hm : (1000 : ℝ) * (-1) = -1000 := by norm_num
  rw [hm]
  have hf : (⌊(-1000 : ℝ)⌋ : ℤ) = -1000 := by norm_num
  rw [hf, if_neg (by norm_num)]
  have hr : (round (-1000 : ℝ) : ℤ) = -1000 := by
    rw [round_eq]
    norm_num
  rw [hr]
  norm_num

/-- Two nondegenerate columns with zero covariance sum correlate at exactly
0 (and 0 rounds to 0). -/
lemma pearson3_zero_cov (xs ys : List ℚ) (h1 : varSum xs ≠ 0) (h2 : varSum ys ≠ 0)
    (hc : covSum xs ys = 0) : pearson3 xs ys = some 0 := by
  unfold pearson3
  rw [if_neg (by simp [h1, h2])]
  have hval : pearsonVal xs ys = 0 := by
    unfold pearsonVal
    rw [hc]
    push_cast
    exact zero_div _
  rw [hval, round3R_zero]

/-- A column against its exact negation (equal squared-deviation sums,
covariance sum the negated variance) correlates at exactly -1. -/
lemma pearson3_anti (xs ys : List ℚ) (h : varSum xs ≠ 0)
    (hvy : varSum ys = varSum xs) (hc : covSum xs ys = -varSum xs) :
    pearson3 xs ys = some (-1) := by
  unfold pearson3
  rw [if_neg (by simp [h, hvy])]
  have hnn : (0 : ℝ) ≤ ((varSum xs : ℚ) : ℝ) := by exact_mod_cast varSum_nonneg xs
  have hne : ((varSum xs : ℚ) : ℝ) ≠ 0 := by exact_mod_cast h
  have hval : pearsonVal xs ys = -1 := by
    unfold pearsonVal
    rw [hc, hvy, Real.mul_self_sqrt hnn]
    push_cast
    field_simp
  rw [hval, round3R_neg_one]

/-- Two matrices agreeing on all pairs of listed fields produce the same
ranking. -/
lemma top_pairs_congr {fields : List String} {M1 M2 : String → String → Option ℚ}
    (h : ∀ a ∈ fields, ∀ b ∈ fields, M1 a b = M2 a b) :
    top_pairs fields M1 = top_pairs fields M2 := by
  have hcp : corr_pairs fields M1 = corr_pairs fields M2 := by
    unfold corr_pairs unstackPairs
    apply List.map_congr_left
    intro p hp
    have hpu := (List.mem_filter.mp hp).1
    obtain ⟨c, hc, hr⟩ := List.mem_flatMap.mp hpu
    obtain ⟨r, hrr, rfl⟩ := List.mem_map.mp hr
    rw [h c hc r hrr]
  unfold top_pairs
  rw [hcp]

/-- The exact rounded correlation matrix of the 4-row dataframe `df4` is the
tied matrix `tieM` on the five fields. -/
lemma corr_df4 : ∀ a ∈ fieldNames, ∀ b ∈ fieldNames,
    corrRound3 df4 a b = tieM a b := by
  have hSLT : colQ df4 "Supplier_Lead_Time" = [1, -1, 1, -1] := by decide
  have hIL : colQ df4 "Inventory_Levels" = [1, -1, 1, -1] := by decide
  have hOF : colQ df4 "Order_Frequency" = [1, -1, -1, 1] := by decide
  have hDP : colQ df4 "Delivery_Performance" = [1, 1, -1, -1] := by decide
  have hCPU : colQ df4 "Cost_Per_Unit" = [-1, -1, 1, 1] := by decide
  intro a ha b hb
  fin_cases ha <;> fin_cases hb <;>
    simp only [corrRound3, hSLT, hIL, hOF, hDP, hCPU] <;>
    first
      | exact pearson3_self _ (by norm_num [varSum, covSum, listMean])
      | exact pearson3_anti _ _ (by norm_num [varSum, covSum, listMean])
          (by norm_num [varSum, covSum, listMean])
          (by norm_num [varSum, covSum, listMean])
      | exact pearson3_zero_cov _ _ (by norm_num [varSum, covSum, listMean])
          (by norm_num [varSum, covSum, listMean])
          (by norm_num [varSum, covSum, listMean])

/-- C2 counterexample: on the subset consisting of the 4 rows of `df4`, the
pipeline computes the exact correlation matrix `tieM`, two pairs tie at
absolute correlation 1, and the produced ranking places (Inventory_Levels,
Supplier_Lead_Time) before the lexicographically smaller (Cost_Per_Unit,
Delivery_Performance): the claimed lexicographic tie-break is violated. -/
theorem C2_lex_tiebreak_counterexample :
    ¬ specLexRanked fieldNames (corrRound3 (get_recent_df df4 4)) ∧
    top_pairs fieldNames (corrRound3 (get_recent_df df4 4)) =
      [("Inventory_Levels", "Supplier_Lead_Time", some 1),
       ("Cost_Per_Unit", "Delivery_Performance", some (-1)),
       ("Inventory_Levels", "Order_Frequency", some 0)] := by
  have hsub : get_recent_df df4 4 = df4 := by
    norm_num [get_recent_df, tailRows, df4]
  have heq : top_pairs fieldNames (corrRound3 (get_recent_df df4 4)) =
      top_pairs fieldNames tieM := by
    rw [hsub]
    exact top_pairs_congr corr_df4
  constructor
  · unfold specLexRanked
    rw [heq]
    decide
  · rw [heq]
    decide

end SupplyChain
